import Mathlib

set_option maxHeartbeats 1600000

/-!
Shallow embedding of the nativefs copy/move engine (src/main.cc).

The engine is modelled as a deterministic function from an explicit
environment of syscall outcomes (open/fstat/read/write/close/remove/rename
results together with the errno value each failing call sets) to the list
of observable events the run produces: successful opens, closes, fsync,
remove and rename attempts, progress callbacks and the single completion
callback.  The control flow of the model mirrors the goto-based control
flow of `Copy` and `Move` in src/main.cc line by line.
-/

namespace NativeFS

/-- Observable events of one engine run: descriptor lifecycle, filesystem
mutation attempts, progress callbacks and the terminal completion callback.
`complete ok e`: `ok = true` models `SendComplete` (callback gets
`(null, true)`), `ok = false` models `SendError` where `e` is the errno
value whose `strerror` text is passed to the callback. -/
inductive Ev where
  | openOk (p : String) (fd : Nat)
  | created (p : String) (fd : Nat)
  | closeFd (fd : Nat)
  | fsyncFd (fd : Nat)
  | removeF (p : String) (ok : Bool)
  | renameF (src dst : String) (ok : Bool)
  | prog (done total : Nat)
  | complete (ok : Bool) (e : Option Nat)
  deriving DecidableEq, Repr

/-- POSIX errno discipline used throughout: a failing call sets errno to
its error code (`some e`), a succeeding call leaves errno unchanged
(`none`). -/
def errnoAfter (r : Option Nat) (en : Nat) : Nat := r.getD en

/-- `BUFFER_SIZE` from src/main.cc line 158. -/
def BUFFER_SIZE : Nat := 16384

/-- Result of one raw `write` syscall: `err` is a -1 return, `ok n` a
return of `n` bytes (the model clips `n` at the requested length, since
`write` never reports more than it was asked to write). -/
inductive WRes where
  | err : WRes
  | ok (n : Nat) : WRes
  deriving DecidableEq, Repr

/-- `doWrite` (src/main.cc lines 190-197), with the tail recursion made
explicit through a fuel parameter: `o` is the stream of `write` results,
`k` the index of the next `write` call, `datalen` the remaining bytes.
`none` means the recursion did not finish within `fuel` calls;
`some none` models a -1 return; `some (some w)` a normal return. -/
def doWriteFuel (o : Nat → WRes) : Nat → Nat → Nat → Option (Option Nat)
  | _, _, 0 => none
  | k, datalen, fuel + 1 =>
    match o k with
    | .err => some none
    | .ok w =>
      let w' := min w datalen
      if w' < datalen then doWriteFuel o (k + 1) (datalen - w') fuel
      else some (some w')

/-- `doWrite` terminates on write-result stream `o` for a chunk of
`datalen` bytes: some finite number of `write` calls suffices. -/
def doWriteTerm (o : Nat → WRes) (datalen : Nat) : Prop :=
  ∃ fuel, (doWriteFuel o 0 datalen fuel).isSome = true

/-- One iteration of the copy loop (src/main.cc lines 212-224), as decided
by the read/write syscalls: `ok n` is a successful read of `readSz n`
bytes followed by a fully successful `doWrite`; `wfail n e` is a
successful read of `readSz n` bytes followed by `doWrite` returning -1
with errno `e`. -/
inductive Iter where
  | ok (n : Nat)
  | wfail (n : Nat) (e : Nat)
  deriving DecidableEq, Repr

/-- How the read sequence ends once no iteration is left: end of file
(`read` returns 0) or a read error (`read` returns -1 setting errno `e`). -/
inductive REnd where
  | eof : REnd
  | rfail (e : Nat) : REnd
  deriving DecidableEq, Repr

/-- A successful read returns between 1 byte (the loop guard requires
`bytes_read > 0`) and `BUFFER_SIZE` bytes. -/
def readSz (n : Nat) : Nat := min (n + 1) BUFFER_SIZE

/-- Bytes read by an iteration. -/
def iterSz : Iter → Nat
  | .ok n => readSz n
  | .wfail n _ => readSz n

/-- Total bytes read over a list of iterations. -/
def totalRead (l : List Iter) : Nat := (l.map iterSz).sum

/-- Exit status of the chunked copy loop: normal end of file, or the
`goto copyByFdError` exit taken on a read or write error. -/
inductive LoopExit where
  | success : LoopExit
  | fdError : LoopExit
  deriving DecidableEq, Repr

/-- The `while` loop of `Copy(int, int, ssize_t, ...)` (src/main.cc lines
212-224).  Arguments after the environment: remaining iterations, sequence
end, `progress`, `sinceLastUpdate`, errno.  Returns the progress events
emitted, the exit taken, and the errno value at exit. -/
def copyLoop (upd : Bool) (bpu total : Nat) :
    List Iter → REnd → Nat → Nat → Nat → List Ev × LoopExit × Nat
  | [], ending, _, _, en =>
    match ending with
    | .eof => ([], .success, en)
    | .rfail e => ([], .fdError, e)
  | .ok n :: rest, ending, acc, since, en =>
    let b := readSz n
    if since + b > bpu then
      let r := copyLoop upd bpu total rest ending (acc + b) 0 en
      ((if upd then [Ev.prog (acc + b) total] else []) ++ r.1, r.2)
    else
      copyLoop upd bpu total rest ending (acc + b) (since + b) en
  | .wfail _ e :: _, _, _, _, _ => ([], .fdError, e)

/-- Results of the cleanup calls the fd-level `Copy` may perform:
`none` = call succeeded (errno untouched), `some e` = call failed setting
errno `e`. -/
structure LoopCleanup where
  closeInErr : Option Nat
  closeOutErr : Option Nat
  removeDstErr : Option Nat
  removeSrcErr : Option Nat
  deriving DecidableEq, Repr

/-- Environment of one fd-level copy run: the loop iterations decided by
the read/write syscalls, how the read sequence ends, and the cleanup call
results. -/
structure LoopEnv where
  iters : List Iter
  ending : REnd
  cl : LoopCleanup
  deriving DecidableEq, Repr

/-- The copy loop as run by `Copy(int, int, ssize_t, ...)`:
`bytesPerUpdate = inputSize / 100` (integer division, src/main.cc line
206), starting from `progress = 0`, `sinceLastUpdate = 0`. -/
def runLoop (upd : Bool) (inputSize : Nat) (env : LoopEnv) (en0 : Nat) :
    List Ev × LoopExit × Nat :=
  copyLoop upd (inputSize / 100) inputSize env.iters env.ending 0 0 en0

/-- `Copy(int fd_in, int fd_out, ssize_t inputSize, const Args&, bool
removeWhenDone)` (src/main.cc lines 199-250).  On loop success: final
progress update, `close(fd_in)`, `fsync(fd_out)`, `close(fd_out)`,
optional `remove(Source)`, `SendComplete`.  On `copyByFdError`:
`close(fd_in)`, `close(fd_out)`, `remove(Destination)`,
`SendError(strerror(errno))` — errno read only after the cleanup calls. -/
def copyFd (src dst : String) (fdIn fdOut inputSize : Nat)
    (upd removeWhenDone : Bool) (env : LoopEnv) (en0 : Nat) : List Ev :=
  let r := runLoop upd inputSize env en0
  match r.2.1 with
  | .success =>
    r.1 ++ (if upd then [Ev.prog inputSize inputSize] else [])
      ++ [Ev.closeFd fdIn, Ev.fsyncFd fdOut, Ev.closeFd fdOut]
      ++ (if removeWhenDone then [Ev.removeF src env.cl.removeSrcErr.isNone] else [])
      ++ [Ev.complete true none]
  | .fdError =>
    let e1 := errnoAfter env.cl.closeInErr r.2.2
    let e2 := errnoAfter env.cl.closeOutErr e1
    let e3 := errnoAfter env.cl.removeDstErr e2
    r.1 ++ [Ev.closeFd fdIn, Ev.closeFd fdOut,
            Ev.removeF dst env.cl.removeDstErr.isNone,
            Ev.complete false (some e3)]

/-- Metadata returned by `fstat`: the fields src/main.cc reads. -/
structure Stat where
  size : Nat
  mode : Nat
  dev : Nat
  deriving DecidableEq, Repr

/-- Syscall outcomes for one path-level `Copy` or `Move` run.  `Except`
results carry the errno of a failure or the value of a success; the
`Option Nat` fields follow the cleanup-call convention of
`LoopCleanup`. -/
structure PathEnv where
  openIn : Except Nat Nat
  statIn : Except Nat Stat
  openOut : Except Nat Nat
  statOut : Except Nat Stat
  renameErr : Option Nat
  pathRemoveDstErr : Option Nat
  preCloseInErr : Option Nat
  preCloseOutErr : Option Nat
  loop : LoopEnv
  deriving Repr

/-- `Copy(const FunctionCallbackInfo&)` after argument parsing
(src/main.cc lines 252-280): open source, `fstat` it, open/create the
destination with the source's mode, then run the fd-level copy with
`removeWhenDone = false`.  Every failure takes `copyByPathError`:
`remove(Destination)` then `SendError(strerror(errno))`, with any
intervening `close(in)` and the `remove` itself run before errno is
read. -/
def CopyPath (src dst : String) (upd : Bool) (env : PathEnv) (en0 : Nat) :
    List Ev :=
  match env.openIn with
  | .error e =>
    [Ev.removeF dst env.pathRemoveDstErr.isNone,
     Ev.complete false (some (errnoAfter env.pathRemoveDstErr e))]
  | .ok fdIn =>
    match env.statIn with
    | .error e =>
      let e1 := errnoAfter env.preCloseInErr e
      [Ev.openOk src fdIn, Ev.closeFd fdIn,
       Ev.removeF dst env.pathRemoveDstErr.isNone,
       Ev.complete false (some (errnoAfter env.pathRemoveDstErr e1))]
    | .ok st =>
      match env.openOut with
      | .error e =>
        let e1 := errnoAfter env.preCloseInErr e
        [Ev.openOk src fdIn, Ev.closeFd fdIn,
         Ev.removeF dst env.pathRemoveDstErr.isNone,
         Ev.complete false (some (errnoAfter env.pathRemoveDstErr e1))]
      | .ok fdOut =>
        Ev.openOk src fdIn :: Ev.created dst fdOut ::
          copyFd src dst fdIn fdOut st.size upd false env.loop en0

/-- `Move(const FunctionCallbackInfo&)` after argument parsing
(src/main.cc lines 282-339).  Same-device branch: close both descriptors,
`remove(Destination)`, `rename(Source, Destination)` — the result of
`rename` is not inspected — then the final progress update and
`SendComplete`.  Different devices: fd-level copy with
`removeWhenDone = true`.  Failures take `moveError`, analogous to
`copyByPathError`. -/
def MovePath (src dst : String) (upd : Bool) (env : PathEnv) (en0 : Nat) :
    List Ev :=
  match env.openIn with
  | .error e =>
    [Ev.removeF dst env.pathRemoveDstErr.isNone,
     Ev.complete false (some (errnoAfter env.pathRemoveDstErr e))]
  | .ok fdIn =>
    match env.statIn with
    | .error e =>
      let e1 := errnoAfter env.preCloseInErr e
      [Ev.openOk src fdIn, Ev.closeFd fdIn,
       Ev.removeF dst env.pathRemoveDstErr.isNone,
       Ev.complete false (some (errnoAfter env.pathRemoveDstErr e1))]
    | .ok inStats =>
      match env.openOut with
      | .error e =>
        let e1 := errnoAfter env.preCloseInErr e
        [Ev.openOk src fdIn, Ev.closeFd fdIn,
         Ev.removeF dst env.pathRemoveDstErr.isNone,
         Ev.complete false (some (errnoAfter env.pathRemoveDstErr e1))]
      | .ok fdOut =>
        match env.statOut with
        | .error e =>
          let e1 := errnoAfter env.preCloseInErr e
          let e2 := errnoAfter env.preCloseOutErr e1
          [Ev.openOk src fdIn, Ev.created dst fdOut,
           Ev.closeFd fdIn, Ev.closeFd fdOut,
           Ev.removeF dst env.pathRemoveDstErr.isNone,
           Ev.complete false (some (errnoAfter env.pathRemoveDstErr e2))]
        | .ok outStats =>
          if inStats.dev = outStats.dev then
            [Ev.openOk src fdIn, Ev.created dst fdOut,
             Ev.closeFd fdIn, Ev.closeFd fdOut,
             Ev.removeF dst env.pathRemoveDstErr.isNone,
             Ev.renameF src dst env.renameErr.isNone]
            ++ (if upd then [Ev.prog inStats.size inStats.size] else [])
            ++ [Ev.complete true none]
          else
            Ev.openOk src fdIn :: Ev.created dst fdOut ::
              copyFd src dst fdIn fdOut inStats.size upd true env.loop en0

/-- A JavaScript value as seen by the binding layer: the cases the
argument checks of `Args::Args` distinguish. -/
inductive JsVal where
  | str (s : String)
  | fn (id : Nat)
  | other : JsVal
  deriving DecidableEq, Repr

/-- `v->IsString()`. -/
def JsVal.isStr : JsVal → Bool
  | .str _ => true
  | _ => false

/-- `v->IsFunction()`. -/
def JsVal.isFn : JsVal → Bool
  | .fn _ => true
  | _ => false

/-- `get` (src/main.cc lines 67-73): the UTF-8 contents of a string value,
`""` for anything else. -/
def get : JsVal → String
  | .str s => s
  | _ => ""

/-- Identity of a function value, `0` otherwise (only meaningful after
`IsFunction` succeeded, mirroring `Local<Function>::Cast`). -/
def fnId : JsVal → Nat
  | .fn i => i
  | _ => 0

/-- The `Args` object of src/main.cc lines 109-156 after construction.
`thrown` records the `TypeError` text passed to `ThrowError`, if any; on
an early (throwing) return the string members stay default-constructed
(`""`), the callback handles stay empty (`none`) and `updateProgress` is
left uninitialized in C++ — the model picks `false` for it. -/
structure Args where
  source : String
  destination : String
  updateProgress : Bool
  progressCb : Option Nat
  resultCb : Option Nat
  thrown : Option String
  deriving DecidableEq, Repr

/-- `Args::Args` (src/main.cc lines 120-155): the validation chain and the
member assignments.  With four or more arguments, argument 2 is the
progress callback and argument 3 the result callback. -/
def mkArgs (argv : List JsVal) : Args :=
  if argv.length < 3 then
    ⟨"", "", false, none, none, some "Not enough arguments"⟩
  else if !(argv.getD 0 .other).isStr then
    ⟨"", "", false, none, none, some "First argument is not a path"⟩
  else if !(argv.getD 1 .other).isStr then
    ⟨"", "", false, none, none, some "Second argument is not a path"⟩
  else if !(argv.getD 2 .other).isFn then
    ⟨"", "", false, none, none, some "Missing result callback"⟩
  else if 3 < argv.length ∧ !(argv.getD 3 .other).isFn then
    ⟨"", "", false, none, none, some "Unknown arguments"⟩
  else
    { source := get (argv.getD 0 .other)
      destination := get (argv.getD 1 .other)
      updateProgress := decide (3 < argv.length)
      progressCb := if 3 < argv.length then some (fnId (argv.getD 2 .other)) else none
      resultCb := some (fnId (argv.getD (if 3 < argv.length then 3 else 2) .other))
      thrown := none }

/-- A call is malformed in the sense of the argument-validation contract:
fewer than three arguments, a non-string path, a non-callable third
argument (missing completion callback), or a non-callable fourth
argument. -/
def malformedArgs (argv : List JsVal) : Prop :=
  argv.length < 3
  ∨ (argv.getD 0 .other).isStr = false
  ∨ (argv.getD 1 .other).isStr = false
  ∨ (argv.getD 2 .other).isFn = false
  ∨ (3 < argv.length ∧ (argv.getD 3 .other).isFn = false)

instance (argv : List JsVal) : Decidable (malformedArgs argv) := by
  unfold malformedArgs; infer_instance

/-- A model filesystem: the set of existing paths (contents are irrelevant
to the claims about creation and removal). -/
abbrev FS := List String

/-- `remove(p)` on the model filesystem. -/
def fsErase (fs : FS) (p : String) : FS := fs.filter (fun q => q != p)

/-- Effect of one event on the model filesystem: a successful
`O_CREAT | O_TRUNC` open makes the destination exist, a successful
`remove` erases its path, a successful `rename` moves the source path to
the destination path; everything else leaves the filesystem unchanged. -/
def applyEv (fs : FS) : Ev → FS
  | .created p _ => if fs.contains p then fs else p :: fs
  | .removeF p true => fsErase fs p
  | .renameF s d true =>
    let fs' := fsErase fs s
    if fs'.contains d then fs' else d :: fs'
  | _ => fs

/-- Filesystem after a trace of events. -/
def applyTrace (fs : FS) (t : List Ev) : FS := t.foldl applyEv fs

/-- The deterministic syscall environment induced by the model filesystem:
opening an existing source for reading succeeds (descriptor 3), opening an
empty path fails with errno 2 (`ENOENT` — POSIX guarantees failure for an
empty pathname), creating a destination under a nonempty path succeeds
(descriptor 4), `fstat` on a valid descriptor succeeds, and `remove`
succeeds exactly when the path exists.  Both paths land on device 1 and
the loop transfers no data (sizes are irrelevant to the path-level
claims). -/
def envOfFS (fs : FS) (src dst : String) : PathEnv :=
  { openIn := if src != "" && fs.contains src then .ok 3 else .error 2
    statIn := .ok ⟨0, 420, 1⟩
    openOut := if dst != "" then .ok 4 else .error 2
    statOut := .ok ⟨0, 420, 1⟩
    renameErr := none
    pathRemoveDstErr := if dst != "" && fs.contains dst then none else some 2
    preCloseInErr := none
    preCloseOutErr := none
    loop := ⟨[], .eof, ⟨none, none, none, none⟩⟩ }

/-- `Copy(const FunctionCallbackInfo&)` from the raw argument list down
(src/main.cc lines 252-255): construct `Args` — note the constructor's
early returns after `ThrowError` are not checked by the caller, so the
body proceeds with the default-constructed members — and run the
path-level copy over the filesystem-induced environment. -/
def copyTraceFS (argv : List JsVal) (fs : FS) : List Ev :=
  let a := mkArgs argv
  CopyPath a.source a.destination a.updateProgress
    (envOfFS fs a.source a.destination) 0

/-- Path-level `Copy` over the filesystem-induced environment, for given
source and destination paths. -/
def copyFS (src dst : String) (fs : FS) : List Ev :=
  CopyPath src dst false (envOfFS fs src dst) 0

/-- `Move(const FunctionCallbackInfo&)` from the raw argument list down
(src/main.cc lines 282-285): construct `Args` — the constructor's early
returns after `ThrowError` are, as in `Copy`, not checked by the caller —
and run the path-level move over the filesystem-induced environment. -/
def moveTraceFS (argv : List JsVal) (fs : FS) : List Ev :=
  let a := mkArgs argv
  MovePath a.source a.destination a.updateProgress
    (envOfFS fs a.source a.destination) 0

/-- Is the event a completion callback? -/
def isCompleteEv : Ev → Bool
  | .complete _ _ => true
  | _ => false

/-- Is the event a progress callback? -/
def isProgEv : Ev → Bool
  | .prog _ _ => true
  | _ => false

/-- Does the event open a descriptor (source open or destination
creation)? -/
def opensDesc : Ev → Bool
  | .openOk _ _ => true
  | .created _ _ => true
  | _ => false

/-- Number of completion callbacks in a trace. -/
def completeCount (t : List Ev) : Nat := (t.filter isCompleteEv).length

/-- Number of `close` calls on descriptor `f` in a trace. -/
def closeCount (t : List Ev) (f : Nat) : Nat :=
  (t.filter (fun ev =>
    match ev with
    | .closeFd g => g == f
    | _ => false)).length

/-- Number of times descriptor `f` is opened in a trace. -/
def openCount (t : List Ev) (f : Nat) : Nat :=
  (t.filter (fun ev =>
    match ev with
    | .openOk _ g => g == f
    | .created _ g => g == f
    | _ => false)).length

/-- The trace's final event is the completion callback. -/
def endsWithComplete (t : List Ev) : Bool :=
  match t.getLast? with
  | some (.complete _ _) => true
  | _ => false

/-- The `done` components of the progress callbacks of a trace, in
order. -/
def progDones (t : List Ev) : List Nat :=
  t.filterMap (fun ev =>
    match ev with
    | .prog d _ => some d
    | _ => none)

/-- The `(done, total)` pairs of the progress callbacks of a trace, in
order. -/
def progPairs (t : List Ev) : List (Nat × Nat) :=
  t.filterMap (fun ev =>
    match ev with
    | .prog d tot => some (d, tot)
    | _ => none)

/-- Does the trace attempt `remove(p)`? -/
def removesPath (t : List Ev) (p : String) : Bool :=
  t.any (fun ev =>
    match ev with
    | .removeF q _ => q == p
    | _ => false)

/-- Loop environment in which every read and write succeeds and the read
sequence ends at end of file: iteration `i` reads `readSz (ns.get i)`
bytes. -/
def okLoopEnv (ns : List Nat) : LoopEnv :=
  ⟨ns.map Iter.ok, .eof, ⟨none, none, none, none⟩⟩

/-- The spec's throttling rule, written from its words: walking the list
of read sizes while accumulating bytes since the last notification, a
notification fires exactly when the accumulated bytes exceed
`bytesPerUpdate`, which resets the accumulator.  Returns the number of
notifications fired. -/
def specEmCount (bpu : Nat) : Nat → List Nat → Nat
  | _, [] => 0
  | since, b :: rest =>
    if since + b > bpu then 1 + specEmCount bpu 0 rest
    else specEmCount bpu (since + b) rest

/-- Resource and reporting discipline of one engine run: exactly one
completion callback, delivered as the very last event (hence after every
`close` and never followed by a progress callback), and every descriptor
closed exactly as many times as it was opened. -/
def soundTrace (t : List Ev) : Prop :=
  completeCount t = 1
  ∧ endsWithComplete t = true
  ∧ ∀ f, closeCount t f = openCount t f

/-- The copy loop emits progress events only. -/
theorem copyLoop_prog_only (upd : Bool) (bpu total : Nat) :
    ∀ (iters : List Iter) (ending : REnd) (acc since en : Nat),
      ∀ ev ∈ (copyLoop upd bpu total iters ending acc since en).1,
        isProgEv ev = true := by
  intro iters
  induction iters with
  | nil =>
    intro ending acc since en ev hev
    cases ending <;> simp [copyLoop] at hev
  | cons it rest ih =>
    intro ending acc since en ev hev
    cases it with
    | ok n =>
      simp only [copyLoop] at hev
      by_cases hgt : since + readSz n > bpu
      · simp only [if_pos hgt, List.mem_append] at hev
        rcases hev with hev | hev
        · cases upd <;> simp at hev
          subst hev; rfl
        · exact ih ending (acc + readSz n) 0 en ev hev
      · simp only [if_neg hgt] at hev
        exact ih ending (acc + readSz n) (since + readSz n) en ev hev
    | wfail n e =>
      simp [copyLoop] at hev

/-- A trace of progress events contributes nothing to the completion
count. -/
theorem completeCount_eq_zero (t : List Ev)
    (h : ∀ ev ∈ t, isProgEv ev = true) : completeCount t = 0 := by
  unfold completeCount
  rw [List.length_eq_zero, List.filter_eq_nil_iff]
  intro ev hev
  have := h ev hev
  cases ev <;> simp_all [isProgEv, isCompleteEv]

/-- A trace of progress events contributes nothing to any close count. -/
theorem closeCount_eq_zero (t : List Ev) (f : Nat)
    (h : ∀ ev ∈ t, isProgEv ev = true) : closeCount t f = 0 := by
  unfold closeCount
  rw [List.length_eq_zero, List.filter_eq_nil_iff]
  intro ev hev
  have := h ev hev
  cases ev <;> simp_all [isProgEv]

/-- A trace of progress events contributes nothing to any open count. -/
theorem openCount_eq_zero (t : List Ev) (f : Nat)
    (h : ∀ ev ∈ t, isProgEv ev = true) : openCount t f = 0 := by
  unfold openCount
  rw [List.length_eq_zero, List.filter_eq_nil_iff]
  intro ev hev
  have := h ev hev
  cases ev <;> simp_all [isProgEv]

/-- A trace of progress events never attempts a `remove`. -/
theorem removesPath_eq_false (t : List Ev) (p : String)
    (h : ∀ ev ∈ t, isProgEv ev = true) : removesPath t p = false := by
  unfold removesPath
  rw [List.any_eq_false]
  intro ev hev
  have := h ev hev
  cases ev <;> simp_all [isProgEv]

/-- On the all-zero write stream, `doWrite` on a 1-byte chunk makes no
progress within any number of calls: each `write` reports 0 bytes, the
remaining length never shrinks, and the recursion never returns. -/
theorem doWriteFuel_zero_stream (fuel : Nat) :
    ∀ k, doWriteFuel (fun _ => WRes.ok 0) k 1 fuel = none := by
  induction fuel with
  | zero => intro k; rfl
  | succ fuel ih =>
    intro k
    simpa [doWriteFuel] using ih (k + 1)

/-- C8: refuted as stated — `doWrite` does not terminate on a descriptor
that persistently reports zero-length writes.  For the 1-byte chunk and
the write stream that always returns 0, no number of `write` calls makes
`doWrite` return: the retry of the unwritten tail recurses with the same
remaining length forever. -/
theorem c8_counterexample : ¬ doWriteTerm (fun _ => WRes.ok 0) 1 := by
  rintro ⟨fuel, hf⟩
  rw [doWriteFuel_zero_stream fuel 0] at hf
  exact Bool.false_ne_true hf

/-- C8 (amended): for every chunk and every sequence of write results in
which each `write` either fails or writes at least one byte, `doWrite`
terminates, returning only after the whole chunk is written or a write
call returns an error; on a descriptor that persistently reports
zero-length writes it retries forever. -/
theorem c8_terminates_with_progress (o : Nat → WRes) (datalen : Nat)
    (h : ∀ k, o k = WRes.err ∨ ∃ m, o k = WRes.ok (m + 1)) :
    doWriteTerm o datalen := by
  have key : ∀ d k, ∃ fuel, (doWriteFuel o k d fuel).isSome = true := by
    intro d
    induction d using Nat.strong_induction_on with
    | _ d ih =>
      intro k
      rcases h k with herr | ⟨m, hok⟩
      · exact ⟨1, by simp [doWriteFuel, herr]⟩
      · by_cases hlt : min (m + 1) d < d
        · have hd : 0 < d := lt_of_le_of_lt (Nat.zero_le _) hlt
          have hw : 0 < min (m + 1) d := lt_min (Nat.succ_pos m) hd
          obtain ⟨f, hf⟩ := ih (d - min (m + 1) d) (Nat.sub_lt hd hw) (k + 1)
          exact ⟨f + 1, by simp only [doWriteFuel, hok, if_pos hlt]; exact hf⟩
        · exact ⟨1, by simp [doWriteFuel, hok, if_neg hlt]; omega⟩
  exact key datalen 0

/-- Witness for the amended C8: on the stream writing exactly one byte per
call, `doWrite` finishes a 3-byte chunk. -/
theorem c8_witness : doWriteTerm (fun _ => WRes.ok 1) 3 :=
  c8_terminates_with_progress (fun _ => WRes.ok 1) 3 (fun _ => Or.inr ⟨0, rfl⟩)

/-- C1: refuted as stated — a same-device move whose `rename` fails
(errno 13, shown by the `renameF _ _ false` event) still emits the
success completion `(null, true)`; no failure completion with the OS
error text is produced, because src/main.cc line 321 never inspects the
return value of `rename`. -/
theorem c1_counterexample :
    MovePath "a" "b" true
      ⟨.ok 3, .ok ⟨5, 420, 7⟩, .ok 4, .ok ⟨0, 420, 7⟩, some 13, none, none, none,
        ⟨[], .eof, ⟨none, none, none, none⟩⟩⟩ 0 =
      [Ev.openOk "a" 3, Ev.created "b" 4, Ev.closeFd 3, Ev.closeFd 4,
       Ev.removeF "b" true, Ev.renameF "a" "b" false,
       Ev.prog 5 5, Ev.complete true none] := rfl

/-- C1 (amended): on every same-device move that reaches the rename
branch, the result of the atomic rename is not checked: whatever the
`rename` outcome, the operation emits the final progress update and a
success completion, never a failure completion. -/
theorem c1_rename_result_ignored (src dst : String) (upd : Bool)
    (env : PathEnv) (en0 i o : Nat) (stI stO : Stat)
    (hin : env.openIn = .ok i) (hsi : env.statIn = .ok stI)
    (hout : env.openOut = .ok o) (hso : env.statOut = .ok stO)
    (hdev : stI.dev = stO.dev) :
    MovePath src dst upd env en0 =
      [Ev.openOk src i, Ev.created dst o, Ev.closeFd i, Ev.closeFd o,
       Ev.removeF dst env.pathRemoveDstErr.isNone,
       Ev.renameF src dst env.renameErr.isNone]
      ++ (if upd then [Ev.prog stI.size stI.size] else [])
      ++ [Ev.complete true none] := by
  simp [MovePath, hin, hsi, hout, hso, hdev]

/-- Witness for the amended C1 at a concrete same-device environment with
a failing rename. -/
theorem c1_witness :
    MovePath "a" "b" true
      ⟨.ok 3, .ok ⟨5, 420, 7⟩, .ok 4, .ok ⟨0, 420, 7⟩, some 13, none, none, none,
        ⟨[], .eof, ⟨none, none, none, none⟩⟩⟩ 0 =
      [Ev.openOk "a" 3, Ev.created "b" 4, Ev.closeFd 3, Ev.closeFd 4,
       Ev.removeF "b" true, Ev.renameF "a" "b" false]
      ++ (if true then [Ev.prog 5 5] else [])
      ++ [Ev.complete true none] :=
  c1_rename_result_ignored "a" "b" true
    ⟨.ok 3, .ok ⟨5, 420, 7⟩, .ok 4, .ok ⟨0, 420, 7⟩, some 13, none, none, none,
      ⟨[], .eof, ⟨none, none, none, none⟩⟩⟩ 0 3 4 ⟨5, 420, 7⟩ ⟨0, 420, 7⟩
    rfl rfl rfl rfl rfl

/-- C4: refuted as stated — a `Copy` whose source `"nosuch"` is missing
fails before the destination is ever opened, yet the pre-existing
destination file `"dest"` is not left untouched: `copyByPathError`
(src/main.cc line 277) calls `remove(Destination)` unconditionally, and
the destination disappears from the filesystem. -/
theorem c4_counterexample :
    (["dest"] : FS).contains "dest" = true
    ∧ copyFS "nosuch" "dest" ["dest"] =
        [Ev.removeF "dest" true, Ev.complete false (some 2)]
    ∧ applyTrace ["dest"] (copyFS "nosuch" "dest" ["dest"]) = [] :=
  ⟨rfl, rfl, rfl⟩

/-- C4 (amended): every `Copy` or `Move` failing with a PathError surfaces
the failure via the completion channel, but removes the destination
unconditionally rather than only when it was partially created: already on
a source-open failure — before the destination is opened — both entry
points call `remove(Destination)`, so a pre-existing destination file is
deleted. -/
theorem c4_unconditional_dst_remove (src dst : String) (upd : Bool)
    (env : PathEnv) (en0 e : Nat) (h : env.openIn = .error e) :
    CopyPath src dst upd env en0 =
      [Ev.removeF dst env.pathRemoveDstErr.isNone,
       Ev.complete false (some (errnoAfter env.pathRemoveDstErr e))]
    ∧ MovePath src dst upd env en0 =
      [Ev.removeF dst env.pathRemoveDstErr.isNone,
       Ev.complete false (some (errnoAfter env.pathRemoveDstErr e))] := by
  constructor
  · simp [CopyPath, h]
  · simp [MovePath, h]

/-- Witness for the amended C4 at a concrete environment whose source
open fails with errno 2. -/
theorem c4_witness :
    CopyPath "nosuch" "dest" false
      ⟨.error 2, .ok ⟨0, 420, 1⟩, .ok 4, .ok ⟨0, 420, 1⟩, none, none, none, none,
        ⟨[], .eof, ⟨none, none, none, none⟩⟩⟩ 0 =
      [Ev.removeF "dest" true, Ev.complete false (some 2)]
    ∧ MovePath "nosuch" "dest" false
      ⟨.error 2, .ok ⟨0, 420, 1⟩, .ok 4, .ok ⟨0, 420, 1⟩, none, none, none, none,
        ⟨[], .eof, ⟨none, none, none, none⟩⟩⟩ 0 =
      [Ev.removeF "dest" true, Ev.complete false (some 2)] :=
  c4_unconditional_dst_remove "nosuch" "dest" false
    ⟨.error 2, .ok ⟨0, 420, 1⟩, .ok 4, .ok ⟨0, 420, 1⟩, none, none, none, none,
      ⟨[], .eof, ⟨none, none, none, none⟩⟩⟩ 0 2 rfl

/-- On a malformed call, `Args::Args` throws and returns early: the
`TypeError` is recorded and both path members stay default-constructed. -/
theorem mkArgs_malformed (argv : List JsVal) (h : malformedArgs argv) :
    (mkArgs argv).thrown.isSome = true
    ∧ (mkArgs argv).source = "" ∧ (mkArgs argv).destination = "" := by
  unfold malformedArgs at h
  unfold mkArgs
  split_ifs with h1 h2 h3 h4 h5 <;>
    first
      | exact ⟨rfl, rfl, rfl⟩
      | (exfalso
         rcases h with h | h | h | h | ⟨hlen, hfn⟩
         · exact h1 h
         · exact h2 (by rw [h]; rfl)
         · exact h3 (by rw [h]; rfl)
         · exact h4 (by rw [h]; rfl)
         · exact h5 ⟨hlen, by rw [hfn]; rfl⟩)

/-- With both paths empty, `Copy` opens nothing: `open("")` fails with
`ENOENT`, `copyByPathError` attempts `remove("")` which also fails with
`ENOENT`, and the error completion is delivered. -/
theorem copyPath_empty_paths (fs : FS) (upd : Bool) :
    CopyPath "" "" upd (envOfFS fs "" "") 0 =
      [Ev.removeF "" false, Ev.complete false (some 2)] := by
  simp [CopyPath, envOfFS, errnoAfter]

/-- With both paths empty, `Move` opens nothing either: `open("")` fails
with `ENOENT`, `moveError` attempts `remove("")` which also fails with
`ENOENT`, and the error completion is delivered. -/
theorem movePath_empty_paths (fs : FS) (upd : Bool) :
    MovePath "" "" upd (envOfFS fs "" "") 0 =
      [Ev.removeF "" false, Ev.complete false (some 2)] := by
  simp [MovePath, envOfFS, errnoAfter]

/-- C2: on every malformed `Copy` or `Move` invocation — fewer than three
arguments, a non-string path, a missing result callback, or a
non-callable fourth argument — the argument-validation `TypeError` is
thrown synchronously by the `Args` constructor, and no file descriptor is
opened and no file is created, truncated or removed: both path members
are left empty, so the `open` either body still attempts fails with
`ENOENT` and the attempted `remove("")` mutates nothing, leaving the
filesystem unchanged. -/
theorem c2_validation (argv : List JsVal) (fs : FS) (h : malformedArgs argv) :
    (mkArgs argv).thrown.isSome = true
    ∧ applyTrace fs (copyTraceFS argv fs) = fs
    ∧ (∀ ev ∈ copyTraceFS argv fs, opensDesc ev = false)
    ∧ applyTrace fs (moveTraceFS argv fs) = fs
    ∧ ∀ ev ∈ moveTraceFS argv fs, opensDesc ev = false := by
  obtain ⟨hthrown, hsrc, hdst⟩ := mkArgs_malformed argv h
  have htrace : copyTraceFS argv fs = [Ev.removeF "" false, Ev.complete false (some 2)] := by
    show CopyPath (mkArgs argv).source (mkArgs argv).destination
        (mkArgs argv).updateProgress
        (envOfFS fs (mkArgs argv).source (mkArgs argv).destination) 0 = _
    rw [hsrc, hdst]
    exact copyPath_empty_paths fs _
  have hmtrace : moveTraceFS argv fs = [Ev.removeF "" false, Ev.complete false (some 2)] := by
    show MovePath (mkArgs argv).source (mkArgs argv).destination
        (mkArgs argv).updateProgress
        (envOfFS fs (mkArgs argv).source (mkArgs argv).destination) 0 = _
    rw [hsrc, hdst]
    exact movePath_empty_paths fs _
  refine ⟨hthrown, ?_, ?_, ?_, ?_⟩
  · rw [htrace]; rfl
  · rw [htrace]
    decide
  · rw [hmtrace]; rfl
  · rw [hmtrace]
    decide

/-- Witness for C2: calling `Copy` or `Move` with only two path arguments
throws, opens no descriptor and leaves the filesystem (holding just
`"x"`) unchanged. -/
theorem c2_witness :
    (mkArgs [JsVal.str "a", JsVal.str "b"]).thrown.isSome = true
    ∧ applyTrace ["x"] (copyTraceFS [JsVal.str "a", JsVal.str "b"] ["x"]) = ["x"]
    ∧ (∀ ev ∈ copyTraceFS [JsVal.str "a", JsVal.str "b"] ["x"],
        opensDesc ev = false)
    ∧ applyTrace ["x"] (moveTraceFS [JsVal.str "a", JsVal.str "b"] ["x"]) = ["x"]
    ∧ ∀ ev ∈ moveTraceFS [JsVal.str "a", JsVal.str "b"] ["x"],
        opensDesc ev = false :=
  c2_validation [JsVal.str "a", JsVal.str "b"] ["x"] (Or.inl (by decide))

/-- C3: refuted as stated — in this run the only failing transfer
operation is the write, with errno 28 (`ENOSPC`), so the claim requires
the destination to be deleted and the failure completion to carry the
description of error 28.  Instead the cleanup `remove` fails with errno 13
(`EACCES`): the partial destination is not deleted (`removeF "d" false`)
and the completion carries `strerror(13)` — the cleanup's error, not the
failed write's — because src/main.cc line 248 reads `errno` only after
lines 244-247 have run. -/
theorem c3_counterexample :
    copyFd "s" "d" 3 4 100 true false
      ⟨[Iter.wfail 0 28], .eof, ⟨none, none, some 13, none⟩⟩ 0 =
      [Ev.closeFd 3, Ev.closeFd 4, Ev.removeF "d" false,
       Ev.complete false (some 13)]
    ∧ (13 : Nat) ≠ 28 := ⟨rfl, by decide⟩

/-- C3 (amended): every copy-loop run in which a read or write fails
aborts the loop, closes both descriptors, attempts removal of the partial
destination, and emits exactly one failure completion carrying the
OS error description of the errno current after cleanup; when the cleanup
`close` and `remove` calls all succeed (leaving errno untouched), that is
exactly the OS error of the failed read or write. -/
theorem c3_loop_error_cleanup (src dst : String) (fdIn fdOut inputSize : Nat)
    (upd removeWhenDone : Bool) (env : LoopEnv) (en0 : Nat)
    (hexit : (runLoop upd inputSize env en0).2.1 = LoopExit.fdError)
    (hci : env.cl.closeInErr = none) (hco : env.cl.closeOutErr = none)
    (hrd : env.cl.removeDstErr = none) :
    copyFd src dst fdIn fdOut inputSize upd removeWhenDone env en0 =
      (runLoop upd inputSize env en0).1
      ++ [Ev.closeFd fdIn, Ev.closeFd fdOut, Ev.removeF dst true,
          Ev.complete false (some (runLoop upd inputSize env en0).2.2)]
    ∧ completeCount
        (copyFd src dst fdIn fdOut inputSize upd removeWhenDone env en0) = 1 := by
  have htr : copyFd src dst fdIn fdOut inputSize upd removeWhenDone env en0 =
      (runLoop upd inputSize env en0).1
      ++ [Ev.closeFd fdIn, Ev.closeFd fdOut, Ev.removeF dst true,
          Ev.complete false (some (runLoop upd inputSize env en0).2.2)] := by
    simp only [copyFd]
    rw [hexit]
    simp [errnoAfter, hci, hco, hrd]
  refine ⟨htr, ?_⟩
  have hpev := copyLoop_prog_only upd (inputSize / 100) inputSize
    env.iters env.ending 0 0 en0
  have h0 := completeCount_eq_zero (runLoop upd inputSize env en0).1 hpev
  unfold completeCount at h0 ⊢
  rw [htr, List.filter_append, List.length_append, h0]
  rfl

/-- Witness for the amended C3 at a concrete run whose write fails with
errno 28 and whose cleanup calls all succeed. -/
theorem c3_witness :
    copyFd "s" "d" 3 4 100 true false
      ⟨[Iter.wfail 0 28], .eof, ⟨none, none, none, none⟩⟩ 0 =
      [Ev.closeFd 3, Ev.closeFd 4, Ev.removeF "d" true,
       Ev.complete false (some 28)]
    ∧ completeCount
        (copyFd "s" "d" 3 4 100 true false
          ⟨[Iter.wfail 0 28], .eof, ⟨none, none, none, none⟩⟩ 0) = 1 :=
  c3_loop_error_cleanup "s" "d" 3 4 100 true false
    ⟨[Iter.wfail 0 28], .eof, ⟨none, none, none, none⟩⟩ 0 rfl rfl rfl rfl

/-- C10: confirmed — on each of the three failure paths the delivered
error text is `strerror(errno)` read only after the cleanup `close` and
`remove` calls.  Each pair below contrasts two runs that fail with the
same original error but differ in the cleanup `remove(destination)`
outcome: when the cleanup remove fails with errno 13, the completion
describes error 13 instead of the original error (28 for the copy-loop
write error, 2 for the `Copy` path error, 5 for the `Move` error). -/
theorem c10_strerror_after_cleanup :
    (copyFd "s" "d" 3 4 100 true false
        ⟨[Iter.wfail 1 28], .eof, ⟨none, none, some 13, none⟩⟩ 0 =
      [Ev.closeFd 3, Ev.closeFd 4, Ev.removeF "d" false,
       Ev.complete false (some 13)])
    ∧ (copyFd "s" "d" 3 4 100 true false
        ⟨[Iter.wfail 1 28], .eof, ⟨none, none, none, none⟩⟩ 0 =
      [Ev.closeFd 3, Ev.closeFd 4, Ev.removeF "d" true,
       Ev.complete false (some 28)])
    ∧ (CopyPath "s" "d" true
        ⟨.error 2, .ok ⟨0, 420, 1⟩, .ok 4, .ok ⟨0, 420, 1⟩, none, some 13,
          none, none, ⟨[], .eof, ⟨none, none, none, none⟩⟩⟩ 0 =
      [Ev.removeF "d" false, Ev.complete false (some 13)])
    ∧ (CopyPath "s" "d" true
        ⟨.error 2, .ok ⟨0, 420, 1⟩, .ok 4, .ok ⟨0, 420, 1⟩, none, none,
          none, none, ⟨[], .eof, ⟨none, none, none, none⟩⟩⟩ 0 =
      [Ev.removeF "d" true, Ev.complete false (some 2)])
    ∧ (MovePath "s" "d" true
        ⟨.ok 3, .ok ⟨9, 420, 1⟩, .ok 4, .error 5, none, some 13,
          none, none, ⟨[], .eof, ⟨none, none, none, none⟩⟩⟩ 0 =
      [Ev.openOk "s" 3, Ev.created "d" 4, Ev.closeFd 3, Ev.closeFd 4,
       Ev.removeF "d" false, Ev.complete false (some 13)])
    ∧ (MovePath "s" "d" true
        ⟨.ok 3, .ok ⟨9, 420, 1⟩, .ok 4, .error 5, none, none,
          none, none, ⟨[], .eof, ⟨none, none, none, none⟩⟩⟩ 0 =
      [Ev.openOk "s" 3, Ev.created "d" 4, Ev.closeFd 3, Ev.closeFd 4,
       Ev.removeF "d" true, Ev.complete false (some 5)])
    ∧ (13 : Nat) ≠ 28 ∧ (13 : Nat) ≠ 2 ∧ (13 : Nat) ≠ 5 :=
  ⟨rfl, rfl, rfl, rfl, rfl, rfl, by decide, by decide, by decide⟩

/-- C5: confirmed — on a cross-device move (device identifiers differ),
`remove(Source)` is invoked if and only if the copy loop exits
successfully; on any copy-phase read or write error the source is left in
place (only the destination is removed). -/
theorem c5_cross_device_remove_iff (src dst : String) (upd : Bool)
    (env : PathEnv) (en0 i o : Nat) (stI stO : Stat)
    (hin : env.openIn = .ok i) (hsi : env.statIn = .ok stI)
    (hout : env.openOut = .ok o) (hso : env.statOut = .ok stO)
    (hdev : stI.dev ≠ stO.dev) (hne : src ≠ dst) :
    removesPath (MovePath src dst upd env en0) src = true
      ↔ (runLoop upd stI.size env.loop en0).2.1 = LoopExit.success := by
  have hpev := copyLoop_prog_only upd (stI.size / 100) stI.size
    env.loop.iters env.loop.ending 0 0 en0
  have hloop := removesPath_eq_false (runLoop upd stI.size env.loop en0).1 src hpev
  unfold removesPath at hloop
  have hne' : (dst == src) = false := beq_eq_false_iff_ne.mpr (Ne.symm hne)
  have hmv : MovePath src dst upd env en0 =
      Ev.openOk src i :: Ev.created dst o ::
        copyFd src dst i o stI.size upd true env.loop en0 := by
    simp [MovePath, hin, hsi, hout, hso, hdev]
  rw [hmv]
  cases hexit : (runLoop upd stI.size env.loop en0).2.1 with
  | success =>
    simp only [copyFd, hexit]
    simp only [removesPath, List.any_cons, List.any_append, hloop]
    cases upd <;> simp
  | fdError =>
    simp only [copyFd, hexit]
    simp only [removesPath, List.any_cons, List.any_append, hloop]
    simp [hne']

/-- Witness for C5 at a concrete cross-device environment (devices 1 and
2) whose empty copy loop succeeds. -/
theorem c5_witness :
    removesPath
      (MovePath "s" "d" true
        ⟨.ok 3, .ok ⟨0, 420, 1⟩, .ok 4, .ok ⟨0, 420, 2⟩, none, none, none, none,
          ⟨[], .eof, ⟨none, none, none, none⟩⟩⟩ 0) "s" = true
      ↔ (runLoop true 0
          (⟨[], .eof, ⟨none, none, none, none⟩⟩ : LoopEnv) 0).2.1
        = LoopExit.success :=
  c5_cross_device_remove_iff "s" "d" true
    ⟨.ok 3, .ok ⟨0, 420, 1⟩, .ok 4, .ok ⟨0, 420, 2⟩, none, none, none, none,
      ⟨[], .eof, ⟨none, none, none, none⟩⟩⟩ 0 3 4 ⟨0, 420, 1⟩ ⟨0, 420, 2⟩
    rfl rfl rfl rfl (by decide) (by decide)

/-- The copy loop on an all-successful read sequence emits exactly the
notifications prescribed by the spec's throttling rule, from any starting
accumulator. -/
theorem c7_loop_count (bpu total en : Nat) :
    ∀ (ns : List Nat) (acc since : Nat),
      (progDones
        (copyLoop true bpu total (ns.map Iter.ok) REnd.eof acc since en).1).length
        = specEmCount bpu since (ns.map readSz) := by
  intro ns
  induction ns with
  | nil => intro acc since; rfl
  | cons n rest ih =>
    intro acc since
    simp only [List.map_cons, copyLoop, specEmCount]
    by_cases hgt : since + readSz n > bpu
    · rw [if_pos hgt, if_pos hgt]
      have hrec := ih (acc + readSz n) 0
      simp only [progDones] at hrec ⊢
      simp only [List.filterMap_append, List.length_append, hrec]
      simp
    · rw [if_neg hgt, if_neg hgt]
      exact ih (acc + readSz n) (since + readSz n)

/-- With a zero threshold, the throttling rule fires on every read: each
successful read transfers at least one byte. -/
theorem specEmCount_zero_bpu :
    ∀ (ns : List Nat) (since : Nat),
      specEmCount 0 since (ns.map readSz) = ns.length := by
  intro ns
  induction ns with
  | nil => intro since; rfl
  | cons n rest ih =>
    intro since
    have hgt : since + readSz n > 0 := by unfold readSz BUFFER_SIZE; omega
    simp only [List.map_cons, specEmCount, if_pos hgt]
    rw [ih 0, List.length_cons]
    omega

/-- C7: confirmed — over any run of the copy loop in which every read and
write succeeds, the number of intermediate progress notifications equals
the count prescribed by the rule "notify exactly when the bytes
accumulated since the last notification exceed
`bytesPerUpdate = totalSize / 100`" (integer truncation, threshold
strictly exceeded); consequently, whenever the source size is below 100
bytes the threshold is zero and every successful read triggers a
notification. -/
theorem c7_progress_throttle (inputSize : Nat) (ns : List Nat) (en0 : Nat) :
    (progDones (runLoop true inputSize (okLoopEnv ns) en0).1).length
      = specEmCount (inputSize / 100) 0 (ns.map readSz)
    ∧ (inputSize < 100 →
        (progDones (runLoop true inputSize (okLoopEnv ns) en0).1).length
          = ns.length) := by
  have hcount :
      (progDones (runLoop true inputSize (okLoopEnv ns) en0).1).length
        = specEmCount (inputSize / 100) 0 (ns.map readSz) :=
    c7_loop_count (inputSize / 100) inputSize en0 ns 0 0
  refine ⟨hcount, fun h => ?_⟩
  have h0 : inputSize / 100 = 0 := Nat.div_eq_of_lt h
  rw [hcount, h0, specEmCount_zero_bpu ns 0]

/-- Witness for C7: a 50-byte file read in chunks of 1 and 2 bytes; the
threshold is zero, so both reads notify. -/
theorem c7_witness :
    (progDones (runLoop true 50 (okLoopEnv [0, 1]) 0).1).length
      = specEmCount (50 / 100) 0 ([0, 1].map readSz)
    ∧ (50 < 100 →
        (progDones (runLoop true 50 (okLoopEnv [0, 1]) 0).1).length
          = [0, 1].length) :=
  c7_progress_throttle 50 [0, 1] 0

/-- Unfolding of a loop iteration that fires a notification. -/
theorem copyLoop_ok_pos_fst (upd : Bool) (bpu total n : Nat) (rest : List Iter)
    (ending : REnd) (acc since en : Nat) (h : since + readSz n > bpu) :
    (copyLoop upd bpu total (Iter.ok n :: rest) ending acc since en).1 =
      (if upd then [Ev.prog (acc + readSz n) total] else [])
        ++ (copyLoop upd bpu total rest ending (acc + readSz n) 0 en).1 := by
  simp only [copyLoop]
  rw [if_pos h]

/-- Unfolding of a loop iteration below the throttling threshold. -/
theorem copyLoop_ok_neg_fst (upd : Bool) (bpu total n : Nat) (rest : List Iter)
    (ending : REnd) (acc since en : Nat) (h : ¬ since + readSz n > bpu) :
    (copyLoop upd bpu total (Iter.ok n :: rest) ending acc since en).1 =
      (copyLoop upd bpu total rest ending (acc + readSz n) (since + readSz n) en).1 := by
  simp only [copyLoop]
  rw [if_neg h]

/-- Invariant of the copy loop: the emitted `done` values form a
non-decreasing chain, and each lies strictly above the starting progress
and within it plus the bytes still to be read. -/
theorem c6_loop_chain (bpu total en : Nat) :
    ∀ (iters : List Iter) (ending : REnd) (acc since : Nat),
      List.Chain' (· ≤ ·)
        (progDones (copyLoop true bpu total iters ending acc since en).1)
      ∧ ∀ d ∈ progDones (copyLoop true bpu total iters ending acc since en).1,
          acc < d ∧ d ≤ acc + totalRead iters := by
  intro iters
  induction iters with
  | nil =>
    intro ending acc since
    cases ending <;> simp [copyLoop, progDones]
  | cons it rest ih =>
    intro ending acc since
    cases it with
    | wfail n e => simp [copyLoop, progDones]
    | ok n =>
      have hb : 0 < readSz n := by unfold readSz BUFFER_SIZE; omega
      have htr : totalRead (Iter.ok n :: rest) = readSz n + totalRead rest := by
        simp [totalRead, iterSz]
      by_cases hgt : since + readSz n > bpu
      · rw [copyLoop_ok_pos_fst true bpu total n rest ending acc since en hgt]
        obtain ⟨ihc, ihb⟩ := ih ending (acc + readSz n) 0
        have hd : progDones
            ((if true then [Ev.prog (acc + readSz n) total] else [])
              ++ (copyLoop true bpu total rest ending (acc + readSz n) 0 en).1)
            = (acc + readSz n)
              :: progDones (copyLoop true bpu total rest ending (acc + readSz n) 0 en).1 := by
          simp [progDones]
        rw [hd]
        constructor
        · rw [List.chain'_cons']
          refine ⟨fun y hy => ?_, ihc⟩
          exact le_of_lt (ihb y (List.mem_of_mem_head? hy)).1
        · intro d hd2
          rcases List.mem_cons.mp hd2 with rfl | hmem
          · exact ⟨by omega, by rw [htr]; omega⟩
          · obtain ⟨h1, h2⟩ := ihb d hmem
            exact ⟨by omega, by rw [htr]; omega⟩
      · rw [copyLoop_ok_neg_fst true bpu total n rest ending acc since en hgt]
        obtain ⟨ihc, ihb⟩ := ih ending (acc + readSz n) (since + readSz n)
        refine ⟨ihc, fun d hd2 => ?_⟩
        obtain ⟨h1, h2⟩ := ihb d hd2
        exact ⟨by omega, by rw [htr]; omega⟩

/-- C6: confirmed — for every run of the copy engine with a progress
channel whose loop completes successfully (and whose reads, coming from a
source that does not grow, total at most the initial size), the sequence
of `done` values delivered on the progress channel is non-decreasing and
the final progress notification is `(totalSize, totalSize)`, emitted
unconditionally after the loop regardless of throttling state. -/
theorem c6_progress_monotone (src dst : String) (fdIn fdOut inputSize : Nat)
    (removeWhenDone : Bool) (env : LoopEnv) (en0 : Nat)
    (hexit : (runLoop true inputSize env en0).2.1 = LoopExit.success)
    (hle : totalRead env.iters ≤ inputSize) :
    List.Chain' (· ≤ ·)
      (progDones (copyFd src dst fdIn fdOut inputSize true removeWhenDone env en0))
    ∧ (progPairs
        (copyFd src dst fdIn fdOut inputSize true removeWhenDone env en0)).getLast?
      = some (inputSize, inputSize) := by
  obtain ⟨hc, hbnd⟩ :=
    c6_loop_chain (inputSize / 100) inputSize en0 env.iters env.ending 0 0
  have hc' : List.Chain' (· ≤ ·)
      (progDones (runLoop true inputSize env en0).1) := hc
  have hbnd' : ∀ d ∈ progDones (runLoop true inputSize env en0).1,
      0 < d ∧ d ≤ 0 + totalRead env.iters := hbnd
  have hpd : progDones
      (copyFd src dst fdIn fdOut inputSize true removeWhenDone env en0)
      = progDones (runLoop true inputSize env en0).1 ++ [inputSize] := by
    simp only [copyFd]
    rw [hexit]
    cases removeWhenDone <;> simp [progDones]
  have hpp : progPairs
      (copyFd src dst fdIn fdOut inputSize true removeWhenDone env en0)
      = progPairs (runLoop true inputSize env en0).1
        ++ [(inputSize, inputSize)] := by
    simp only [copyFd]
    rw [hexit]
    cases removeWhenDone <;> simp [progPairs]
  constructor
  · rw [hpd]
    refine List.Chain'.append hc' (List.chain'_singleton _) ?_
    intro x hx y hy
    have hx' := (hbnd' x (List.mem_of_mem_getLast? hx)).2
    have hy' : y = inputSize := by simpa using List.mem_of_mem_head? hy
    omega
  · rw [hpp]
    exact List.getLast?_concat _

/-- Witness for C6: a 5-byte source read in chunks of 2 and 3 bytes. -/
theorem c6_witness :
    List.Chain' (· ≤ ·)
      (progDones (copyFd "s" "d" 3 4 5 true false
        ⟨[Iter.ok 1, Iter.ok 2], .eof, ⟨none, none, none, none⟩⟩ 0))
    ∧ (progPairs (copyFd "s" "d" 3 4 5 true false
        ⟨[Iter.ok 1, Iter.ok 2], .eof, ⟨none, none, none, none⟩⟩ 0)).getLast?
      = some (5, 5) :=
  c6_progress_monotone "s" "d" 3 4 5 false
    ⟨[Iter.ok 1, Iter.ok 2], .eof, ⟨none, none, none, none⟩⟩ 0 rfl (by decide)

/-- Prepending an event preserves "the last event is the completion". -/
theorem endsWithComplete_cons (a : Ev) {t : List Ev}
    (h : endsWithComplete t = true) : endsWithComplete (a :: t) = true := by
  unfold endsWithComplete at *
  cases ht : t.getLast? with
  | none => rw [ht] at h; simp at h
  | some ev =>
    rw [ht] at h
    have hmem : ev ∈ (a :: t).getLast? :=
      List.mem_getLast?_cons (Option.mem_def.mpr ht)
    rw [Option.mem_def.mp hmem]
    exact h

/-- Shape of the fd-level copy trace on loop success. -/
theorem copyFd_success_eq (src dst : String) (fdIn fdOut inputSize : Nat)
    (upd rwd : Bool) (env : LoopEnv) (en0 : Nat)
    (hexit : (runLoop upd inputSize env en0).2.1 = LoopExit.success) :
    copyFd src dst fdIn fdOut inputSize upd rwd env en0 =
      (runLoop upd inputSize env en0).1
      ++ ((if upd then [Ev.prog inputSize inputSize] else [])
      ++ ([Ev.closeFd fdIn, Ev.fsyncFd fdOut, Ev.closeFd fdOut]
      ++ ((if rwd then [Ev.removeF src env.cl.removeSrcErr.isNone] else [])
      ++ [Ev.complete true none]))) := by
  simp only [copyFd]
  rw [hexit]
  simp

/-- Shape of the fd-level copy trace on the `copyByFdError` exit. -/
theorem copyFd_error_eq (src dst : String) (fdIn fdOut inputSize : Nat)
    (upd rwd : Bool) (env : LoopEnv) (en0 : Nat)
    (hexit : (runLoop upd inputSize env en0).2.1 = LoopExit.fdError) :
    copyFd src dst fdIn fdOut inputSize upd rwd env en0 =
      (runLoop upd inputSize env en0).1
      ++ [Ev.closeFd fdIn, Ev.closeFd fdOut,
          Ev.removeF dst env.cl.removeDstErr.isNone,
          Ev.complete false
            (some (errnoAfter env.cl.removeDstErr
              (errnoAfter env.cl.closeOutErr
                (errnoAfter env.cl.closeInErr
                  (runLoop upd inputSize env en0).2.2))))] := by
  simp only [copyFd]
  rw [hexit]

/-- Counting discipline of the fd-level copy: one completion, delivered
last; `fd_in` and `fd_out` each closed once; no descriptor opened. -/
theorem copyFd_counts (src dst : String) (fdIn fdOut inputSize : Nat)
    (upd rwd : Bool) (env : LoopEnv) (en0 : Nat) :
    completeCount (copyFd src dst fdIn fdOut inputSize upd rwd env en0) = 1
    ∧ endsWithComplete (copyFd src dst fdIn fdOut inputSize upd rwd env en0) = true
    ∧ ∀ f, closeCount (copyFd src dst fdIn fdOut inputSize upd rwd env en0) f
          = (if fdIn = f then 1 else 0) + (if fdOut = f then 1 else 0)
      ∧ openCount (copyFd src dst fdIn fdOut inputSize upd rwd env en0) f = 0 := by
  have hpev := copyLoop_prog_only upd (inputSize / 100) inputSize
    env.iters env.ending 0 0 en0
  have hC := completeCount_eq_zero (runLoop upd inputSize env en0).1 hpev
  have hE := fun f => closeCount_eq_zero (runLoop upd inputSize env en0).1 f hpev
  have hO := fun f => openCount_eq_zero (runLoop upd inputSize env en0).1 f hpev
  cases hexit : (runLoop upd inputSize env en0).2.1 with
  | success =>
    rw [copyFd_success_eq src dst fdIn fdOut inputSize upd rwd env en0 hexit]
    refine ⟨?_, ?_, fun f => ⟨?_, ?_⟩⟩
    · unfold completeCount at hC ⊢
      cases upd <;> cases rwd <;>
        simp [List.filter_append, hC, isCompleteEv]
    · cases upd <;> cases rwd <;> simp [endsWithComplete]
    · have hEf := hE f
      unfold closeCount at hEf ⊢
      by_cases h1 : fdIn = f <;> by_cases h2 : fdOut = f <;>
        cases upd <;> cases rwd <;>
          simp [List.filter_append, hEf, h1, h2]
    · have hOf := hO f
      unfold openCount at hOf ⊢
      cases upd <;> cases rwd <;>
        simp [List.filter_append, hOf]
  | fdError =>
    rw [copyFd_error_eq src dst fdIn fdOut inputSize upd rwd env en0 hexit]
    refine ⟨?_, ?_, fun f => ⟨?_, ?_⟩⟩
    · unfold completeCount at hC ⊢
      simp [List.filter_append, hC, isCompleteEv]
    · simp [endsWithComplete]
    · have hEf := hE f
      unfold closeCount at hEf ⊢
      by_cases h1 : fdIn = f <;> by_cases h2 : fdOut = f <;>
        simp [List.filter_append, hEf, h1, h2]
    · have hOf := hO f
      unfold openCount at hOf ⊢
      simp [List.filter_append, hOf]

/-- A leading source-open event adds no close. -/
theorem closeCount_cons_open (p : String) (g f : Nat) (t : List Ev) :
    closeCount (Ev.openOk p g :: t) f = closeCount t f := by
  simp [closeCount]

/-- A leading destination-creation event adds no close. -/
theorem closeCount_cons_cre (p : String) (g f : Nat) (t : List Ev) :
    closeCount (Ev.created p g :: t) f = closeCount t f := by
  simp [closeCount]

/-- A leading source-open event opens its descriptor. -/
theorem openCount_cons_open (p : String) (g f : Nat) (t : List Ev) :
    openCount (Ev.openOk p g :: t) f = (if g = f then 1 else 0) + openCount t f := by
  by_cases h : g = f <;> simp [openCount, h] <;> omega

/-- A leading destination-creation event opens its descriptor. -/
theorem openCount_cons_cre (p : String) (g f : Nat) (t : List Ev) :
    openCount (Ev.created p g :: t) f = (if g = f then 1 else 0) + openCount t f := by
  by_cases h : g = f <;> simp [openCount, h] <;> omega

/-- C9: confirmed — on every execution path of `Copy` and `Move`
(success, mid-loop I/O error, or pre-loop classification error) each
opened descriptor is closed exactly once — for every descriptor the number
of closes equals the number of opens, and the two descriptors of a run are
distinct in reality — exactly one completion callback is delivered, and it
is the final event of the run, so it follows every close and no progress
notification comes after it. -/
theorem c9_resource_discipline (src dst : String) (upd : Bool)
    (env : PathEnv) (en0 : Nat) :
    soundTrace (CopyPath src dst upd env en0)
    ∧ soundTrace (MovePath src dst upd env en0) := by
  constructor
  · -- Copy
    cases hin : env.openIn with
    | error e =>
      simp only [CopyPath, hin]
      refine ⟨by simp [completeCount, isCompleteEv], by simp [endsWithComplete],
        fun f => by simp [closeCount, openCount]⟩
    | ok i =>
      cases hsi : env.statIn with
      | error e =>
        simp only [CopyPath, hin, hsi]
        refine ⟨by simp [completeCount, isCompleteEv], by simp [endsWithComplete],
          fun f => ?_⟩
        by_cases h1 : i = f <;> simp [closeCount, openCount, h1]
      | ok st =>
        cases hoo : env.openOut with
        | error e =>
          simp only [CopyPath, hin, hsi, hoo]
          refine ⟨by simp [completeCount, isCompleteEv], by simp [endsWithComplete],
            fun f => ?_⟩
          by_cases h1 : i = f <;> simp [closeCount, openCount, h1]
        | ok o =>
          obtain ⟨hc1, hc2, hc3⟩ := copyFd_counts src dst i o st.size upd false env.loop en0
          simp only [CopyPath, hin, hsi, hoo]
          refine ⟨?_, ?_, fun f => ?_⟩
          · unfold completeCount at hc1 ⊢
            simp [isCompleteEv, hc1]
          · exact endsWithComplete_cons _ (endsWithComplete_cons _ hc2)
          · obtain ⟨hcl, hop⟩ := hc3 f
            rw [closeCount_cons_open, closeCount_cons_cre,
                openCount_cons_open, openCount_cons_cre, hcl, hop]
            simp
  · -- Move
    cases hin : env.openIn with
    | error e =>
      simp only [MovePath, hin]
      refine ⟨by simp [completeCount, isCompleteEv], by simp [endsWithComplete],
        fun f => by simp [closeCount, openCount]⟩
    | ok i =>
      cases hsi : env.statIn with
      | error e =>
        simp only [MovePath, hin, hsi]
        refine ⟨by simp [completeCount, isCompleteEv], by simp [endsWithComplete],
          fun f => ?_⟩
        by_cases h1 : i = f <;> simp [closeCount, openCount, h1]
      | ok st =>
        cases hoo : env.openOut with
        | error e =>
          simp only [MovePath, hin, hsi, hoo]
          refine ⟨by simp [completeCount, isCompleteEv], by simp [endsWithComplete],
            fun f => ?_⟩
          by_cases h1 : i = f <;> simp [closeCount, openCount, h1]
        | ok o =>
          cases hso : env.statOut with
          | error e =>
            simp only [MovePath, hin, hsi, hoo, hso]
            refine ⟨by simp [completeCount, isCompleteEv], by simp [endsWithComplete],
              fun f => ?_⟩
            by_cases h1 : i = f <;> by_cases h2 : o = f <;>
              simp [closeCount, openCount, h1, h2]
          | ok stO =>
            by_cases hdev : st.dev = stO.dev
            · simp only [MovePath, hin, hsi, hoo, hso, if_pos hdev]
              refine ⟨?_, ?_, fun f => ?_⟩
              · cases upd <;> simp [completeCount, isCompleteEv]
              · cases upd <;> simp [endsWithComplete]
              · by_cases h1 : i = f <;> by_cases h2 : o = f <;>
                  cases upd <;>
                    simp [closeCount, openCount, List.filter_append, h1, h2]
            · obtain ⟨hc1, hc2, hc3⟩ :=
                copyFd_counts src dst i o st.size upd true env.loop en0
              simp only [MovePath, hin, hsi, hoo, hso, if_neg hdev]
              refine ⟨?_, ?_, fun f => ?_⟩
              · unfold completeCount at hc1 ⊢
                simp [isCompleteEv, hc1]
              · exact endsWithComplete_cons _ (endsWithComplete_cons _ hc2)
              · obtain ⟨hcl, hop⟩ := hc3 f
                rw [closeCount_cons_open, closeCount_cons_cre,
                    openCount_cons_open, openCount_cons_cre, hcl, hop]
                simp

end NativeFS
